import Mathlib

/-!
Verification of the model-catalog resolution subsystem of the poe2openai
gateway (src/src/handlers/models.rs) and of the global admission gate
initialization (src/src/main.rs).

The Rust code is embedded shallowly:
* `ModelInfo`, `ModelConfig`, `CustomModel`, `Config` mirror the record
  types consumed by `get_models` (field set as used by the handler).
* `get_models_from_api` mirrors the fetch adapter; the two upstream HTTP
  calls are passed in as explicit `Except`-valued oracles.
* The cache section (double-checked locking on `API_MODELS_CACHE`) is
  modelled per-task by `cachePopulate`, a function of the slot value as
  observed under the read lock and under the write lock (these may differ
  because another task can install a snapshot in between); the
  write-lock queue of a miss episode is modelled by `runWriters`, which
  executes the serialized write-critical sections in queue order.
* The merge loop (lines 186-261) becomes `processUpstream`/`addCustoms`;
  the ambient clock `Utc::now().timestamp()` becomes an explicit `now`
  argument.
-/

/-- Embedding of Rust's `str::to_lowercase` (ASCII range, which covers
every model id): lowercase each character of the string. Defined over
the character list so that it reduces structurally (core's
`String.toLower` is extensionally the same map but is implemented by
well-founded recursion over positions). -/
def strToLower (s : String) : String :=
  ⟨s.data.map Char.toLower⟩

/-- Mirror of `poe_api_process::ModelInfo` as serialized in responses. -/
structure ModelInfo where
  id : String
  object : String
  created : Int
  owned_by : String
deriving Repr, DecidableEq

/-- Mirror of `types::ModelConfig` (per-model override from models.yaml):
the fields read by `get_models` are `enable : Option<bool>` and
`mapping : Option<String>`. -/
structure ModelConfig where
  enable : Option Bool
  mapping : Option String
deriving Repr, DecidableEq

/-- Mirror of a `config.custom_models` entry: the fields read by
`get_models` are `id`, `created : Option<i64>`, `owned_by : Option<String>`. -/
structure CustomModel where
  id : String
  created : Option Int
  owned_by : Option String
deriving Repr, DecidableEq

/-- Mirror of the parts of `types::Config` read by `get_models`. The
`models` map is carried as an association list (first key match wins,
like a `HashMap` with distinct keys). -/
structure Config where
  enable : Option Bool
  use_v1_api : Option Bool
  api_token : Option String
  models : List (String × ModelConfig)
  custom_models : Option (List CustomModel)
deriving Repr, DecidableEq

/-- Lines 123-128: `config.models.into_iter().map(|(k, v)| (k.to_lowercase(), v))`. -/
def lowerKeys (models : List (String × ModelConfig)) : List (String × ModelConfig) :=
  models.map (fun kv => (strToLower kv.1, kv.2))

/-- Lines 16-68, `get_models_from_api`: chooses the token-authenticated
v1 listing or the legacy listing according to `use_v1_api`, lowercases
every returned id, and wraps upstream failures in a message. The two
outbound calls are supplied as oracles `v1Result` / `legacyResult`. -/
def get_models_from_api (config : Config)
    (v1Result legacyResult : Except String (List ModelInfo)) :
    Except String (List ModelInfo) :=
  if config.use_v1_api.getD false then
    match config.api_token with
    | some _ =>
      match v1Result with
      | .ok resp => .ok (resp.map fun m => ⟨strToLower m.id, m.object, m.created, m.owned_by⟩)
      | .error e => .error ("v1/models API 請求失敗: " ++ e)
    | none => .error "配置了使用 v1/models API 但未提供 api_token"
  else
    match legacyResult with
    | .ok lst => .ok (lst.map fun m => ⟨strToLower m.id, m.object, m.created, m.owned_by⟩)
    | .error e => .error ("get_model_list API 請求失敗: " ++ e)

/-- Lines 188-228: one step of the upstream merge loop. Looks the
lowercased id up in the lowered yaml map; a disabled override drops the
record, a mapping renames it to the lowercased target, otherwise the
record is emitted with the lowercased id and the other fields cloned. -/
def applyYaml (ymap : List (String × ModelConfig)) (m : ModelInfo) : Option ModelInfo :=
  let idLower := strToLower m.id
  match ymap.lookup idLower with
  | some cfg =>
    if cfg.enable.getD true then
      match cfg.mapping with
      | some mp => some ⟨strToLower mp, m.object, m.created, m.owned_by⟩
      | none => some ⟨idLower, m.object, m.created, m.owned_by⟩
    else none
  | none => some ⟨idLower, m.object, m.created, m.owned_by⟩

/-- Lines 186-228: the upstream pass of the merge (push into
`processed_models_enabled` exactly when `applyYaml` emits). -/
def processUpstream (ymap : List (String × ModelConfig)) (ups : List ModelInfo) :
    List ModelInfo :=
  ups.filterMap (applyYaml ymap)

/-- Lines 231-261: the custom-model pass. Each custom entry is skipped
when its lowercased id already occurs in the accumulated list, or when
the yaml map explicitly sets `enable: false` for it; otherwise a record
with `object = "model"`, `created` defaulted to the clock reading `now`,
and `owned_by` defaulted to `"poe"` is appended. -/
def addCustoms (ymap : List (String × ModelConfig)) (now : Int)
    (acc : List ModelInfo) : List CustomModel → List ModelInfo
  | [] => acc
  | c :: rest =>
    let modelId := strToLower c.id
    if acc.any (fun m => m.id = modelId) then
      addCustoms ymap now acc rest
    else
      match ymap.lookup modelId with
      | some cfg =>
        if cfg.enable = some false then
          addCustoms ymap now acc rest
        else
          addCustoms ymap now
            (acc ++ [⟨modelId, "model", c.created.getD now, c.owned_by.getD "poe"⟩]) rest
      | none =>
        addCustoms ymap now
          (acc ++ [⟨modelId, "model", c.created.getD now, c.owned_by.getD "poe"⟩]) rest

/-- Lines 186-261: the whole merge step of the enabled path, as a pure
function of the cached upstream list, the lowered yaml map, the custom
entries and the clock reading. -/
def mergeModels (ups : List ModelInfo) (ymap : List (String × ModelConfig))
    (customs : List CustomModel) (now : Int) : List ModelInfo :=
  addCustoms ymap now (processUpstream ymap ups) customs

/-- Body of a rendered JSON response: either the success payload
`\x7b "object": "list", "data": [...] \x7d` or the failure payload
`\x7b "error": message \x7d`. -/
inductive RenderedBody where
  | modelList (data : List ModelInfo)
  | errorObj (message : String)
deriving Repr, DecidableEq

/-- Outcome of one handler invocation: HTTP status, rendered body, the
cache-slot contents when the handler finishes, and how many upstream
fetches (`get_models_from_api` calls) this invocation performed. -/
structure HandlerResult where
  status : Nat
  body : RenderedBody
  slotAfter : Option (List ModelInfo)
  fetches : Nat
deriving Repr, DecidableEq

/-- Result of one task's trip through the cache section. -/
structure PopulateResult where
  outcome : Except String (List ModelInfo)
  slotAfter : Option (List ModelInfo)
  fetches : Nat

/-- Lines 135-179: the double-checked cache population as seen by one
task. `slotRead` is the slot value observed under the shared read lock;
`slotWrite` is the value observed after acquiring the exclusive write
lock on a read miss (another task may have installed a snapshot in
between, so the two observations are separate inputs). `fetchResult` is
consumed only when both checks miss; on success the fetched snapshot is
installed, on failure the slot is left empty. -/
def cachePopulate (slotRead slotWrite : Option (List ModelInfo))
    (fetchResult : Except String (List ModelInfo)) : PopulateResult :=
  match slotRead with
  | some cached => ⟨.ok cached, some cached, 0⟩
  | none =>
    match slotWrite with
    | some cached => ⟨.ok cached, some cached, 0⟩
    | none =>
      match fetchResult with
      | .ok models => ⟨.ok models, some models, 1⟩
      | .error e => ⟨.error e, none, 1⟩

/-- A miss episode: the write-lock queue serializes the tasks that
missed at the read check, so their write-critical sections (lines
146-178) run one after another. Each queued task re-checks the slot,
adopts an installed snapshot without fetching, and otherwise consumes
its own fetch result (installing it on success). Returns the outcome
observed by each task in queue order, the final slot, and the total
number of upstream fetches. -/
def runWriters (slot : Option (List ModelInfo)) :
    List (Except String (List ModelInfo)) →
    List (Except String (List ModelInfo)) × Option (List ModelInfo) × Nat
  | [] => ([], slot, 0)
  | f :: rest =>
    match slot with
    | some cached =>
      let r := runWriters (some cached) rest
      (.ok cached :: r.1, r.2.1, r.2.2)
    | none =>
      match f with
      | .ok models =>
        let r := runWriters (some models) rest
        (.ok models :: r.1, r.2.1, r.2.2 + 1)
      | .error e =>
        let r := runWriters none rest
        (.error e :: r.1, r.2.1, r.2.2 + 1)

/-- Lines 77-116: the `/api/models` path. Always fetches; on success it
overwrites the cache slot with the fresh list and renders it unfiltered;
on failure it renders status 500 with the raw error and leaves the slot
(`slot` is its prior content) untouched. -/
def apiModelsPath (config : Config)
    (v1Result legacyResult : Except String (List ModelInfo))
    (slot : Option (List ModelInfo)) : HandlerResult :=
  match get_models_from_api config v1Result legacyResult with
  | .ok models => ⟨200, .modelList models, some models, 1⟩
  | .error e => ⟨500, .errorObj e, slot, 1⟩

/-- Lines 130-276: the enabled path. Populates (or reads) the cache via
`cachePopulate`, then merges the snapshot with the lowered yaml map and
the custom models; a population failure renders status 500 with the
wrapped error message. -/
def enabledPath (config : Config)
    (v1Result legacyResult : Except String (List ModelInfo))
    (slotRead slotWrite : Option (List ModelInfo)) (now : Int) : HandlerResult :=
  let ymap := lowerKeys config.models
  let pr := cachePopulate slotRead slotWrite
    (get_models_from_api config v1Result legacyResult)
  match pr.outcome with
  | .ok snap =>
    ⟨200, .modelList (mergeModels snap ymap (config.custom_models.getD []) now),
      pr.slotAfter, pr.fetches⟩
  | .error e =>
    ⟨500, .errorObj ("未能檢索模型列表以填充快取：" ++ e), pr.slotAfter, pr.fetches⟩

/-- Lines 277-307: the disabled path (yaml merging off). Fetches
directly, applies no merge rule, never touches the cache slot
(`slot` is its prior content). -/
def disabledPath (config : Config)
    (v1Result legacyResult : Except String (List ModelInfo))
    (slot : Option (List ModelInfo)) : HandlerResult :=
  match get_models_from_api config v1Result legacyResult with
  | .ok models => ⟨200, .modelList models, slot, 1⟩
  | .error e => ⟨500, .errorObj ("無法直接從API獲取模型：" ++ e), slot, 1⟩

/-- Lines 70-308: the whole `get_models` handler. `pathApiModels` tells
whether the request path is `/api/models`. -/
def get_models_route (pathApiModels : Bool) (config : Config)
    (v1Result legacyResult : Except String (List ModelInfo))
    (slotRead slotWrite : Option (List ModelInfo)) (now : Int) : HandlerResult :=
  if pathApiModels then
    apiModelsPath config v1Result legacyResult slotRead
  else if config.enable.getD false then
    enabledPath config v1Result legacyResult slotRead slotWrite now
  else
    disabledPath config v1Result legacyResult slotRead

/-- src/src/main.rs lines 84-86: the global rate limiter is initialized
to `Instant::now() - Duration::from_secs(60)`. Times in milliseconds. -/
def initLastServed (startTime : Int) : Int :=
  startTime - 60000

/-- Modelled from the spec: the Global Admission Gate's `admit`
(`handlers::limit`, not part of src/). Per spec section 4.4, the gate
computes the time elapsed since `last_served`; if it is below
`min_interval` the caller is delayed by the remaining difference,
otherwise it is admitted immediately. Returns the imposed delay. -/
def admitDelay (lastServed now minInterval : Int) : Int :=
  let elapsed := now - lastServed
  if elapsed < minInterval then minInterval - elapsed else 0

/-- Reference definition, written from the spec's words (section 4.3,
per-upstream-record rules): a record whose override sets
`enable == false` is dropped; a record whose override carries a mapping
is emitted with the id replaced by the lowercased mapping target, other
fields unchanged; otherwise (override without mapping, or no override,
`enable` defaulting to true) the record is emitted unchanged. -/
def specOverrideStep (overrides : List (String × ModelConfig)) (m : ModelInfo) :
    Option ModelInfo :=
  match overrides.lookup m.id with
  | some ov =>
    if ov.enable.getD true = false then none
    else
      match ov.mapping with
      | some tgt => some ⟨strToLower tgt, m.object, m.created, m.owned_by⟩
      | none => some m
  | none => some m

/-- Reference definition, written from the spec's words (section 4.3,
custom-entry rules): each custom entry, in order, is skipped if its
lowercased id already appears among the emitted ids or if an override
for that id explicitly sets `enable == false`; otherwise a record with
the entry's lowercased id, `object = "model"`, `created` = provided
value or the clock reading, `owned_by` = provided value or `"poe"` is
appended. -/
def specAppendCustoms (overrides : List (String × ModelConfig)) (now : Int)
    (acc : List ModelInfo) : List CustomModel → List ModelInfo
  | [] => acc
  | c :: rest =>
    let cid := strToLower c.id
    let overrideDisabled : Bool :=
      match overrides.lookup cid with
      | some ov => ov.enable == some false
      | none => false
    if (acc.map (fun r => r.id)).contains cid || overrideDisabled then
      specAppendCustoms overrides now acc rest
    else
      specAppendCustoms overrides now
        (acc ++ [⟨cid, "model", c.created.getD now, c.owned_by.getD "poe"⟩]) rest

/-- Reference definition of the whole merge, from the spec's words:
process the upstream records in order, then append the surviving custom
entries in order; no sorting. -/
def mergeSpec (ups : List ModelInfo) (overrides : List (String × ModelConfig))
    (customs : List CustomModel) (now : Int) : List ModelInfo :=
  specAppendCustoms overrides now (ups.filterMap (specOverrideStep overrides)) customs

/-- Spec section 8, merge enable/disable sanity check. -/
theorem merge_disable_check :
    mergeModels [⟨"a", "model", 1, "p"⟩, ⟨"b", "model", 2, "p"⟩]
      [("b", ⟨some false, none⟩)] [] 0 = [⟨"a", "model", 1, "p"⟩] := by decide

/-- Spec section 8, merge rename sanity check. -/
theorem merge_rename_check :
    (mergeModels [⟨"a", "model", 1, "p"⟩]
      [("a", ⟨some true, some "A2"⟩)] [] 0).map (fun m => m.id) = ["a2"] := by decide

/-- Spec section 8, custom-injection duplicate-skip sanity check. -/
theorem merge_custom_skip_check :
    (mergeModels [⟨"x", "model", 1, "p"⟩] []
      [⟨"x", none, none⟩, ⟨"y", some 7, some "me"⟩] 0).map (fun m => m.id)
    = ["x", "y"] := by decide

/-! ## Helper lemmas -/

theorem char_toNat_ofNat_valid (n : Nat) (h : n.isValidChar) :
    (Char.ofNat n).toNat = n := by
  rw [Char.ofNat, dif_pos h]
  rfl

theorem char_toLower_eq (c : Char) :
    c.toLower = if c.toNat ≥ 65 ∧ c.toNat ≤ 90 then Char.ofNat (c.toNat + 32) else c := rfl

theorem char_toLower_toLower (c : Char) : c.toLower.toLower = c.toLower := by
  rw [char_toLower_eq c]
  by_cases h : c.toNat ≥ 65 ∧ c.toNat ≤ 90
  · rw [if_pos h, char_toLower_eq, char_toNat_ofNat_valid _ (Or.inl (by omega)),
      if_neg (by omega)]
  · rw [if_neg h, char_toLower_eq, if_neg h]

theorem strToLower_strToLower (s : String) :
    strToLower (strToLower s) = strToLower s := by
  simp [strToLower, List.map_map, Function.comp_def, char_toLower_toLower]

theorem runWriters_some (s : List ModelInfo)
    (fs : List (Except String (List ModelInfo))) :
    runWriters (some s) fs = (fs.map (fun _ => Except.ok s), some s, 0) := by
  induction fs with
  | nil => rfl
  | cons f rest ih => simp [runWriters, ih]

/-! ## Claim theorems -/

/-- C3: the cache-population path follows double-checked locking: a
populated slot at the shared-read check returns the cached snapshot with
no upstream call; on a read miss the task re-checks under the write lock
and adopts an already-installed snapshot without fetching; only when
both checks miss is the upstream source called (exactly once), and on
success the fully-formed fetched snapshot is installed into the slot
before being used. -/
theorem c3_double_checked_locking (slotW : Option (List ModelInfo))
    (s models : List ModelInfo) (f : Except String (List ModelInfo)) (e : String) :
    cachePopulate (some s) slotW f = ⟨.ok s, some s, 0⟩
    ∧ cachePopulate none (some s) f = ⟨.ok s, some s, 0⟩
    ∧ cachePopulate none none (.ok models) = ⟨.ok models, some models, 1⟩
    ∧ cachePopulate none none (.error e) = ⟨.error e, none, 1⟩ :=
  ⟨rfl, rfl, rfl, rfl⟩

/-- C8 as stated is false on the code: for two queued cache-miss tasks
whose fetches both fail with the same error, the upstream source is
invoked twice, not exactly once — each write-lock holder that finds the
slot still empty performs its own fetch instead of adopting the
previous task's error. -/
theorem c8_counterexample :
    (runWriters none
      [(Except.error "boom" : Except String (List ModelInfo)), Except.error "boom"]).2.2 = 2
    ∧ (runWriters none
      [(Except.error "boom" : Except String (List ModelInfo)), Except.error "boom"]).2.2 ≠ 1 := by
  constructor
  · rfl
  · decide

/-- C8 amended: for N concurrent cache-miss requests serialized behind
the write lock on an empty slot, if the first task's fetch succeeds the
upstream source is invoked exactly once and all N tasks observe that
same snapshot, which ends up installed in the slot; if every queued
task's fetch fails, each task performs its own fetch (N invocations in
total), observes its own error, and the slot is left empty. -/
theorem c8_single_fetch_amended (m : List ModelInfo)
    (rest : List (Except String (List ModelInfo))) (errs : List String) :
    runWriters none (Except.ok m :: rest)
      = (Except.ok m :: rest.map (fun _ => Except.ok m), some m, 1)
    ∧ runWriters none (errs.map Except.error)
      = (errs.map Except.error, none, errs.length) := by
  constructor
  · simp [runWriters, runWriters_some]
  · induction errs with
    | nil => rfl
    | cons e tail ih => simp [runWriters, ih]

/-- C9 as stated is false: the gate's timestamp is initialized to the
current instant minus 60 seconds, but a configured minimum interval
larger than that margin (here 61000 ms) throttles the very first call
by the remaining difference. -/
theorem c9_counterexample :
    admitDelay (initLastServed 0) 0 61000 = 1000
    ∧ admitDelay (initLastServed 0) 0 61000 ≠ 0 := by
  constructor
  · rfl
  · decide

/-- C9 amended: the shared last-served timestamp is initialized at
process start to the current instant minus the 60-second safety margin,
so the first gated call is never throttled whenever the configured
minimum interval does not exceed that margin (in particular at the
100 ms default). -/
theorem c9_first_call_unthrottled (start now minInterval : Int)
    (hstart : start ≤ now) (hmin : minInterval ≤ 60000) :
    admitDelay (initLastServed start) now minInterval = 0 := by
  simp only [admitDelay, initLastServed]
  rw [if_neg (by omega)]

theorem c9_first_call_unthrottled_witness :
    (0 : Int) ≤ 5 ∧ (100 : Int) ≤ 60000 ∧ admitDelay (initLastServed 0) 5 100 = 0 :=
  ⟨by decide, by decide, c9_first_call_unthrottled 0 5 100 (by decide) (by decide)⟩

/-- C5: every request on the no-cache `/api/models` path performs
exactly one upstream fetch regardless of the slot's current state; on a
successful fetch it renders exactly the fetched list (no override or
custom-model rule applied) and unconditionally overwrites the cache
slot with it. -/
theorem c5_api_models_always_fetches (config : Config)
    (v1Result legacyResult : Except String (List ModelInfo))
    (slot : Option (List ModelInfo)) (models : List ModelInfo) :
    (apiModelsPath config v1Result legacyResult slot).fetches = 1
    ∧ (get_models_from_api config v1Result legacyResult = .ok models →
        apiModelsPath config v1Result legacyResult slot
          = ⟨200, .modelList models, some models, 1⟩) := by
  constructor
  · cases h : get_models_from_api config v1Result legacyResult <;>
      simp [apiModelsPath, h]
  · intro h
    simp [apiModelsPath, h]

theorem c5_witness :
    apiModelsPath ⟨none, none, none, [], none⟩ (.error "x")
      (.ok [⟨"A", "model", 1, "p"⟩]) none
      = ⟨200, .modelList [⟨"a", "model", 1, "p"⟩], some [⟨"a", "model", 1, "p"⟩], 1⟩ :=
  (c5_api_models_always_fetches ⟨none, none, none, [], none⟩ (.error "x")
    (.ok [⟨"A", "model", 1, "p"⟩]) none [⟨"a", "model", 1, "p"⟩]).2 rfl

/-- C4: whenever model-list retrieval fails (missing credential or
upstream failure, surfaced as `get_models_from_api` returning an
error), every path of the handler responds with status 500 and a JSON
error body embedding the failure message, the cache slot is left
unchanged (the enabled path can only fail when both checks found the
slot empty, and it stays empty), and no catalog is stored or
returned. -/
theorem c4_error_responses (config : Config)
    (v1Result legacyResult : Except String (List ModelInfo))
    (slot : Option (List ModelInfo)) (now : Int) (e : String)
    (hfail : get_models_from_api config v1Result legacyResult = .error e) :
    apiModelsPath config v1Result legacyResult slot = ⟨500, .errorObj e, slot, 1⟩
    ∧ enabledPath config v1Result legacyResult none none now
        = ⟨500, .errorObj ("未能檢索模型列表以填充快取：" ++ e), none, 1⟩
    ∧ disabledPath config v1Result legacyResult slot
        = ⟨500, .errorObj ("無法直接從API獲取模型：" ++ e), slot, 1⟩ := by
  refine ⟨?_, ?_, ?_⟩ <;>
    simp [apiModelsPath, enabledPath, disabledPath, cachePopulate, hfail]

theorem c4_witness :
    apiModelsPath ⟨some true, some true, none, [], none⟩ (.ok []) (.ok []) (some [])
      = ⟨500, .errorObj "配置了使用 v1/models API 但未提供 api_token", some [], 1⟩
    ∧ enabledPath ⟨some true, some true, none, [], none⟩ (.ok []) (.ok []) none none 3
      = ⟨500, .errorObj ("未能檢索模型列表以填充快取：" ++
          "配置了使用 v1/models API 但未提供 api_token"), none, 1⟩
    ∧ disabledPath ⟨some true, some true, none, [], none⟩ (.ok []) (.ok []) (some [])
      = ⟨500, .errorObj ("無法直接從API獲取模型：" ++
          "配置了使用 v1/models API 但未提供 api_token"), some [], 1⟩ :=
  c4_error_responses ⟨some true, some true, none, [], none⟩ (.ok []) (.ok [])
    (some []) 3 "配置了使用 v1/models API 但未提供 api_token" rfl

/-- C10: override matching is case-insensitive in the configuration
key: the handler lowercases every key of the override map before
lookup, so whenever the map holds an entry whose key lowercases to a
given (lowercase) model id, looking that id up in the lowered map
succeeds, and the override found comes from an entry whose original key
lowercases to that id. -/
theorem c10_case_insensitive_override (m : List (String × ModelConfig))
    (k : String) (cfg : ModelConfig) (id : String)
    (hmem : (k, cfg) ∈ m) (hk : strToLower k = id) :
    ∃ cfg', (lowerKeys m).lookup id = some cfg'
      ∧ ∃ korig, (korig, cfg') ∈ m ∧ strToLower korig = id := by
  induction m with
  | nil => cases hmem
  | cons p rest ih =>
    obtain ⟨k₀, c₀⟩ := p
    by_cases hp : strToLower k₀ = id
    · exact ⟨c₀, by simp [lowerKeys, List.lookup, hp], k₀, by simp, hp⟩
    · rcases List.mem_cons.mp hmem with heq | hrest
      · cases heq
        exact absurd hk hp
      · rcases ih hrest with ⟨cfg', hl, korig, hmem', hk'⟩
        refine ⟨cfg', ?_, korig, List.mem_cons_of_mem _ hmem', hk'⟩
        have hne : (id == strToLower k₀) = false := by
          simp only [beq_eq_false_iff_ne, ne_eq]
          exact fun h => hp h.symm
        simpa [lowerKeys, List.lookup, hne] using hl

theorem c10_case_insensitive_override_witness :
    ∃ cfg', (lowerKeys [("GPT-4", ⟨some false, none⟩)]).lookup "gpt-4" = some cfg'
      ∧ ∃ korig, (korig, cfg') ∈ [("GPT-4", (⟨some false, none⟩ : ModelConfig))]
          ∧ strToLower korig = "gpt-4" :=
  c10_case_insensitive_override [("GPT-4", ⟨some false, none⟩)] "GPT-4"
    ⟨some false, none⟩ "gpt-4" (by simp) (by decide)

theorem applyYaml_eq_spec (overrides : List (String × ModelConfig)) (m : ModelInfo)
    (hm : strToLower m.id = m.id) :
    applyYaml overrides m = specOverrideStep overrides m := by
  simp only [applyYaml, specOverrideStep, hm]
  cases hl : overrides.lookup m.id with
  | none => rfl
  | some cfg =>
    cases he : cfg.enable.getD true
    · simp [he]
    · cases cfg.mapping <;> simp [he]

theorem any_id_eq_contains (acc : List ModelInfo) (cid : String) :
    acc.any (fun m => m.id = cid) = (acc.map (fun r => r.id)).contains cid := by
  induction acc with
  | nil => rfl
  | cons a rest ih =>
    simp only [List.any_cons, List.map_cons, List.contains_cons, ih]
    congr 1
    refine Bool.eq_iff_iff.mpr ?_
    simp only [decide_eq_true_eq, beq_iff_eq]
    exact eq_comm

theorem addCustoms_eq_spec (overrides : List (String × ModelConfig)) (now : Int)
    (customs : List CustomModel) : ∀ acc : List ModelInfo,
    addCustoms overrides now acc customs = specAppendCustoms overrides now acc customs := by
  induction customs with
  | nil => intro acc; rfl
  | cons c rest ih =>
    intro acc
    simp only [addCustoms, specAppendCustoms, ← any_id_eq_contains]
    by_cases hany : acc.any (fun m => m.id = strToLower c.id) = true
    · rw [if_pos hany, if_pos (by simp [hany])]
      exact ih acc
    · have hanyf : acc.any (fun m => m.id = strToLower c.id) = false := by
        simpa using hany
      rw [if_neg hany]
      cases hl : overrides.lookup (strToLower c.id) with
      | none =>
        dsimp only
        rw [if_neg (by simp [hanyf])]
        exact ih _
      | some cfg =>
        dsimp only
        by_cases hen : cfg.enable = some false
        · rw [if_pos hen, if_pos (by simp [hen])]
          exact ih acc
        · rw [if_neg hen, if_neg (by simp [hanyf, hen])]
          exact ih _

/-- C1: for upstream lists whose ids are already lowercase and override
maps keyed by lowercase ids, the merge implemented by the handler
(drop on `enable = false`, rename to the lowercased mapping target,
pass everything else through unchanged, then append each not-yet-present
and not-disabled custom entry with lowercased id, `object = "model"`,
`created` defaulted to the clock and `owned_by` defaulted to `"poe"`,
preserving upstream order then custom order with no sorting) coincides
with the reference definition written from the spec's words. -/
theorem c1_merge_matches_spec (ups : List ModelInfo)
    (overrides : List (String × ModelConfig)) (customs : List CustomModel) (now : Int)
    (hups : ∀ m ∈ ups, strToLower m.id = m.id)
    (hkeys : ∀ kv ∈ overrides, strToLower kv.1 = kv.1) :
    mergeModels ups overrides customs now = mergeSpec ups overrides customs now := by
  unfold mergeModels mergeSpec processUpstream
  rw [List.filterMap_congr (fun m hm => applyYaml_eq_spec overrides m (hups m hm))]
  exact addCustoms_eq_spec overrides now customs _

theorem c1_witness :
    (∀ m ∈ [(⟨"gpt-4", "model", 1, "openai"⟩ : ModelInfo)], strToLower m.id = m.id)
    ∧ mergeModels [⟨"gpt-4", "model", 1, "openai"⟩]
        [("gpt-4", ⟨some true, some "GPT4"⟩)] [⟨"Extra", none, some "me"⟩] 9
      = mergeSpec [⟨"gpt-4", "model", 1, "openai"⟩]
        [("gpt-4", ⟨some true, some "GPT4"⟩)] [⟨"Extra", none, some "me"⟩] 9 :=
  ⟨by decide,
    c1_merge_matches_spec [⟨"gpt-4", "model", 1, "openai"⟩]
      [("gpt-4", ⟨some true, some "GPT4"⟩)] [⟨"Extra", none, some "me"⟩] 9
      (by decide) (by decide)⟩

theorem addCustoms_nodup (ymap : List (String × ModelConfig)) (now : Int)
    (customs : List CustomModel) : ∀ acc : List ModelInfo,
    (acc.map (fun m => m.id)).Nodup →
    ((addCustoms ymap now acc customs).map (fun m => m.id)).Nodup := by
  induction customs with
  | nil => intro acc h; exact h
  | cons c rest ih =>
    intro acc h
    simp only [addCustoms]
    by_cases hany : acc.any (fun m => m.id = strToLower c.id) = true
    · rw [if_pos hany]
      exact ih acc h
    · have hnotin : strToLower c.id ∉ acc.map (fun m => m.id) := by
        intro hmem
        rcases List.mem_map.mp hmem with ⟨m, hm, hid⟩
        exact hany (List.any_eq_true.mpr ⟨m, hm, by simp [hid]⟩)
      have hext : ((acc ++
          [(⟨strToLower c.id, "model", c.created.getD now,
            c.owned_by.getD "poe"⟩ : ModelInfo)]).map (fun m => m.id)).Nodup := by
        simp [List.nodup_append, h, hnotin]
      rw [if_neg hany]
      cases hl : ymap.lookup (strToLower c.id) with
      | none =>
        dsimp only
        exact ih _ hext
      | some cfg =>
        dsimp only
        by_cases hen : cfg.enable = some false
        · rw [if_pos hen]
          exact ih acc h
        · rw [if_neg hen]
          exact ih _ hext

/-- C2 as stated is false on the code: an override that renames
upstream model "a" onto "b" while "b" is also upstream makes the merge
output carry the id "b" twice — the upstream pass never de-duplicates. -/
theorem c2_counterexample :
    (mergeModels [⟨"a", "model", 1, "p"⟩, ⟨"b", "model", 2, "p"⟩]
        [("a", ⟨none, some "b"⟩)] [] 0).map (fun m => m.id) = ["b", "b"]
    ∧ ¬ ((mergeModels [⟨"a", "model", 1, "p"⟩, ⟨"b", "model", 2, "p"⟩]
        [("a", ⟨none, some "b"⟩)] [] 0).map (fun m => m.id)).Nodup := by
  constructor
  · rfl
  · decide

/-- C2 amended: the custom-entry pass never introduces a duplicate id —
whenever the ids emitted by the upstream pass are pairwise distinct
(which an override renaming onto a colliding id, or duplicate upstream
ids, can violate), the full merge output contains no two records with
the same id, for every custom-entry list. -/
theorem c2_no_duplicate_ids_amended (ups : List ModelInfo)
    (ymap : List (String × ModelConfig)) (customs : List CustomModel) (now : Int)
    (h : ((processUpstream ymap ups).map (fun m => m.id)).Nodup) :
    ((mergeModels ups ymap customs now).map (fun m => m.id)).Nodup :=
  addCustoms_nodup ymap now customs _ h

theorem c2_witness :
    ((mergeModels [⟨"a", "model", 1, "p"⟩] []
        [⟨"a", none, none⟩, ⟨"c", none, none⟩, ⟨"C", some 3, none⟩] 0).map
      (fun m => m.id)).Nodup :=
  c2_no_duplicate_ids_amended [⟨"a", "model", 1, "p"⟩] []
    [⟨"a", none, none⟩, ⟨"c", none, none⟩, ⟨"C", some 3, none⟩] 0 (by decide)

theorem addCustoms_clock_independent (ymap : List (String × ModelConfig))
    (now now' : Int) (customs : List CustomModel) : ∀ acc : List ModelInfo,
    (∀ c ∈ customs, c.created.isSome) →
    addCustoms ymap now acc customs = addCustoms ymap now' acc customs := by
  induction customs with
  | nil => intro acc _; rfl
  | cons c rest ih =>
    intro acc h
    have hrest : ∀ x ∈ rest, x.created.isSome := fun x hx => h x (by simp [hx])
    obtain ⟨v, hv⟩ := Option.isSome_iff_exists.mp (h c (by simp))
    simp only [addCustoms, hv, Option.getD_some]
    by_cases hany : acc.any (fun m => m.id = strToLower c.id) = true
    · rw [if_pos hany, if_pos hany]
      exact ih acc hrest
    · rw [if_neg hany, if_neg hany]
      cases hl : ymap.lookup (strToLower c.id) with
      | none =>
        dsimp only
        exact ih _ hrest
      | some cfg =>
        dsimp only
        by_cases hen : cfg.enable = some false
        · rw [if_pos hen, if_pos hen]
          exact ih acc hrest
        · rw [if_neg hen, if_neg hen]
          exact ih _ hrest

/-- C6 as stated is false on the code: the merge reads the wall clock
for a custom entry that omits `created` (`Utc::now().timestamp()`), so
two runs on equal inputs at different clock readings produce different
outputs — here the injected record's `created` is 0 in one run and 1 in
the other. -/
theorem c6_counterexample :
    mergeModels [] [] [⟨"c", none, none⟩] 0 ≠ mergeModels [] [] [⟨"c", none, none⟩] 1 := by
  decide

/-- C6 amended: the merge step performs no I/O besides reading the
clock for defaulted `created` fields, and is deterministic once the
clock reading is supplied as an explicit input; in particular, whenever
every custom entry provides its `created` field, the output is
independent of the clock reading (two runs on equal inputs are equal). -/
theorem c6_deterministic_amended (ups : List ModelInfo)
    (ymap : List (String × ModelConfig)) (customs : List CustomModel) (now now' : Int)
    (h : ∀ c ∈ customs, c.created.isSome) :
    mergeModels ups ymap customs now = mergeModels ups ymap customs now' :=
  addCustoms_clock_independent ymap now now' customs _ h

theorem c6_witness :
    mergeModels [⟨"x", "model", 1, "p"⟩] [] [⟨"y", some 5, none⟩] 10
      = mergeModels [⟨"x", "model", 1, "p"⟩] [] [⟨"y", some 5, none⟩] 99 :=
  c6_deterministic_amended [⟨"x", "model", 1, "p"⟩] [] [⟨"y", some 5, none⟩] 10 99
    (by decide)

theorem applyYaml_id_lower (ymap : List (String × ModelConfig)) (m r : ModelInfo)
    (h : applyYaml ymap m = some r) : strToLower r.id = r.id := by
  simp only [applyYaml] at h
  split at h
  · split at h
    · split at h
      · cases h
        exact strToLower_strToLower _
      · cases h
        exact strToLower_strToLower _
    · exact Option.noConfusion h
  · cases h
    exact strToLower_strToLower _

theorem processUpstream_ids_lower (ymap : List (String × ModelConfig))
    (ups : List ModelInfo) :
    ∀ r ∈ processUpstream ymap ups, strToLower r.id = r.id := by
  intro r hr
  rcases List.mem_filterMap.mp hr with ⟨m, _, hy⟩
  exact applyYaml_id_lower ymap m r hy

theorem addCustoms_ids_lower (ymap : List (String × ModelConfig)) (now : Int)
    (customs : List CustomModel) : ∀ acc : List ModelInfo,
    (∀ r ∈ acc, strToLower r.id = r.id) →
    ∀ r ∈ addCustoms ymap now acc customs, strToLower r.id = r.id := by
  induction customs with
  | nil => intro acc h; exact h
  | cons c rest ih =>
    intro acc h
    simp only [addCustoms]
    have hext : ∀ r ∈ acc ++
        [(⟨strToLower c.id, "model", c.created.getD now,
          c.owned_by.getD "poe"⟩ : ModelInfo)], strToLower r.id = r.id := by
      intro r hr
      rcases List.mem_append.mp hr with h1 | h2
      · exact h r h1
      · rcases List.mem_singleton.mp h2 with rfl
        exact strToLower_strToLower _
    by_cases hany : acc.any (fun m => m.id = strToLower c.id) = true
    · rw [if_pos hany]
      exact ih acc h
    · rw [if_neg hany]
      cases ymap.lookup (strToLower c.id) with
      | none =>
        dsimp only
        exact ih _ hext
      | some cfg =>
        dsimp only
        by_cases hen : cfg.enable = some false
        · rw [if_pos hen]
          exact ih acc h
        · rw [if_neg hen]
          exact ih _ hext

theorem mergeModels_ids_lower (ups : List ModelInfo)
    (ymap : List (String × ModelConfig)) (customs : List CustomModel) (now : Int) :
    ∀ r ∈ mergeModels ups ymap customs now, strToLower r.id = r.id :=
  addCustoms_ids_lower ymap now customs _ (processUpstream_ids_lower ymap ups)

theorem get_models_from_api_ids_lower (config : Config)
    (v1Result legacyResult : Except String (List ModelInfo))
    (models : List ModelInfo)
    (h : get_models_from_api config v1Result legacyResult = .ok models) :
    ∀ m ∈ models, strToLower m.id = m.id := by
  simp only [get_models_from_api] at h
  split at h
  · split at h
    · split at h
      · cases h
        intro m hm
        rcases List.mem_map.mp hm with ⟨m0, _, rfl⟩
        exact strToLower_strToLower _
      · exact Except.noConfusion h
    · exact Except.noConfusion h
  · split at h
    · cases h
      intro m hm
      rcases List.mem_map.mp hm with ⟨m0, _, rfl⟩
      exact strToLower_strToLower _
    · exact Except.noConfusion h

/-- C7: every model id surfaced in a rendered model list is lowercase —
both fetch modes lowercase each upstream id, the merge emits only
lowercased pass-through ids, lowercased mapping targets, and lowercased
custom ids, so on every path of the handler a rendered `data` list
contains only ids that are fixed points of lowercasing. -/
theorem c7_ids_lowercase (pathApi : Bool) (config : Config)
    (v1Result legacyResult : Except String (List ModelInfo))
    (slotRead slotWrite : Option (List ModelInfo)) (now : Int)
    (data : List ModelInfo)
    (hbody : (get_models_route pathApi config v1Result legacyResult
      slotRead slotWrite now).body = .modelList data) :
    ∀ m ∈ data, strToLower m.id = m.id := by
  unfold get_models_route at hbody
  split at hbody
  · unfold apiModelsPath at hbody
    split at hbody
    · rename_i models heq
      cases hbody
      exact get_models_from_api_ids_lower config v1Result legacyResult data heq
    · exact RenderedBody.noConfusion hbody
  · split at hbody
    · simp only [enabledPath] at hbody
      split at hbody
      · cases hbody
        exact mergeModels_ids_lower _ _ _ _
      · exact RenderedBody.noConfusion hbody
    · unfold disabledPath at hbody
      split at hbody
      · rename_i models heq
        cases hbody
        exact get_models_from_api_ids_lower config v1Result legacyResult data heq
      · exact RenderedBody.noConfusion hbody

theorem c7_witness :
    strToLower (⟨"a", "model", 1, "p"⟩ : ModelInfo).id
      = (⟨"a", "model", 1, "p"⟩ : ModelInfo).id :=
  c7_ids_lowercase true ⟨none, none, none, [], none⟩ (.error "x")
    (.ok [⟨"A", "model", 1, "p"⟩]) none none 0 [⟨"a", "model", 1, "p"⟩] rfl
    ⟨"a", "model", 1, "p"⟩ (by simp)
